import Mathlib

/-!
# Verification of the payment-engine ledger replay (src/payment_engine/src/main.rs)

Shallow embedding of the transaction state machine in `main.rs`.

Modelling choices, each justified against the source:

* Amounts are `f64` in the source; they are embedded as exact rationals `ℚ`.
  The claims settled here concern the skip/accept control flow and the update
  structure, where the number representation is irrelevant; the one claim that
  turns on IEEE-754 rounding behaviour is reported separately.
* `client_id` / `transaction_id` are `String`s in the source, but validated by
  `Transaction::from_record` to parse as `u16` / `u32`; they are embedded as `ℕ`.
* The two `HashMap`s are embedded as association lists with a replacing
  `setKey` (mirroring `HashMap::insert` and the `entry(..).or_insert(..)` API);
  claims never depend on iteration order.
* `Transaction::dispute` and `Transaction::resolve_or_chargeback` call
  `.unwrap()` on the history lookup; `main` only calls them after
  `contains_key` succeeded, so the embedding gives the `none` branch the
  behaviour "return the table with the `or_insert` applied", which is
  unreachable from `applyEvent`.
-/

/-- One entry of the `clients` hashmap: the tuple `(available, held, total, frozen)`. -/
structure Account where
  available : ℚ
  held : ℚ
  total : ℚ
  frozen : Bool
deriving DecidableEq, Repr

/-- One entry of the `transaction_history` hashmap: the tuple `(client_id, amount, disputed)`. -/
structure TxRecord where
  client_id : ℕ
  amount : ℚ
  disputed : Bool
deriving DecidableEq, Repr

/-- The parsed event record (struct `Transaction` in the source). -/
structure Transaction where
  transaction_type : String
  client_id : ℕ
  transaction_id : ℕ
  amount : ℚ
deriving DecidableEq, Repr

/-- Association-list lookup, embedding `HashMap::get`. -/
def lookupKey {α : Type} : List (ℕ × α) → ℕ → Option α
  | [], _ => none
  | (k, v) :: rest, k' => if k = k' then some v else lookupKey rest k'

/-- Replacing insert, embedding `HashMap::insert` (and the write-back of the
`entry` API): replaces the value at an existing key, appends otherwise. -/
def setKey {α : Type} : List (ℕ × α) → ℕ → α → List (ℕ × α)
  | [], k', v' => [(k', v')]
  | (k, v) :: rest, k', v' =>
    if k = k' then (k', v') :: rest else (k, v) :: setKey rest k' v'

/-- The value `(0.0, 0.0, 0.0, false)` used by every `or_insert` in the source. -/
def emptyAccount : Account := ⟨0, 0, 0, false⟩

/-- `Transaction::deposit_or_withdrawal`: `entry(..).or_insert(..)`, then
mutate `available` and `total` by the event amount according to `action`. -/
def deposit_or_withdrawal (t : Transaction) (clients : List (ℕ × Account))
    (action : String) : List (ℕ × Account) :=
  let acc := (lookupKey clients t.client_id).getD emptyAccount
  let acc' :=
    if action = "deposit" then
      { acc with available := acc.available + t.amount, total := acc.total + t.amount }
    else if action = "withdrawal" then
      { acc with available := acc.available - t.amount, total := acc.total - t.amount }
    else acc
  setKey clients t.client_id acc'

/-- `Transaction::dispute`: `entry(..).or_insert(..)`, look up the disputed
transaction's recorded amount, move it from `available` to `held`, recompute
`total`.  The `none` branch embeds the unreachable `.unwrap()` (see header). -/
def dispute (t : Transaction) (clients : List (ℕ × Account))
    (transaction_history : List (ℕ × TxRecord)) : List (ℕ × Account) :=
  let acc := (lookupKey clients t.client_id).getD emptyAccount
  match lookupKey transaction_history t.transaction_id with
  | none => setKey clients t.client_id acc
  | some r =>
    let available := acc.available - r.amount
    let held := acc.held + r.amount
    setKey clients t.client_id ⟨available, held, available + held, acc.frozen⟩

/-- `Transaction::resolve_or_chargeback`.  Note the order in the source: the
`entry(..).or_insert(..)` runs before the owner-mismatch check, so the early
`return clients` on mismatch still contains the freshly inserted account. -/
def resolve_or_chargeback (t : Transaction) (clients : List (ℕ × Account))
    (transaction_history : List (ℕ × TxRecord)) (action : String) :
    List (ℕ × Account) :=
  let acc := (lookupKey clients t.client_id).getD emptyAccount
  match lookupKey transaction_history t.transaction_id with
  | none => setKey clients t.client_id acc
  | some r =>
    if r.client_id ≠ t.client_id then setKey clients t.client_id acc
    else
      let acc' :=
        if action = "resolve" then
          { acc with available := acc.available + r.amount, held := acc.held - r.amount }
        else if action = "chargeback" then
          { acc with held := acc.held - r.amount, frozen := true }
        else acc
      setKey clients t.client_id { acc' with total := acc'.available + acc'.held }

/-- The two tables owned by the engine (`clients` and `transaction_history`). -/
structure EngineState where
  clients : List (ℕ × Account)
  transaction_history : List (ℕ × TxRecord)
deriving DecidableEq, Repr

/-- Whether the event's client account is frozen: the lookup at the top of the
loop body in `main` (a missing account counts as not frozen). -/
def accountFrozen (s : EngineState) (c : ℕ) : Bool :=
  match lookupKey s.clients c with
  | some a => a.frozen
  | none => false

/-- One iteration of the event loop in `main`, after parsing: the frozen-account
skip, then the `match` on the transaction type with its validity checks and the
unconditional `transaction_history.insert` in the dispute / resolve / chargeback
arms. -/
def applyEvent (s : EngineState) (t : Transaction) : EngineState :=
  if accountFrozen s t.client_id then s
  else if t.transaction_type = "deposit" ∨ t.transaction_type = "withdrawal" then
    if (lookupKey s.transaction_history t.transaction_id).isSome then s
    else
      { clients := deposit_or_withdrawal t s.clients t.transaction_type,
        transaction_history :=
          setKey s.transaction_history t.transaction_id ⟨t.client_id, t.amount, false⟩ }
  else if t.transaction_type = "dispute" then
    match lookupKey s.transaction_history t.transaction_id with
    | none => s
    | some r =>
      if r.client_id ≠ t.client_id then s
      else
        { clients := dispute t s.clients s.transaction_history,
          transaction_history :=
            setKey s.transaction_history t.transaction_id ⟨t.client_id, r.amount, true⟩ }
  else if t.transaction_type = "resolve" ∨ t.transaction_type = "chargeback" then
    match lookupKey s.transaction_history t.transaction_id with
    | none => s
    | some r =>
      if r.disputed = false then s
      else
        { clients := resolve_or_chargeback t s.clients s.transaction_history t.transaction_type,
          transaction_history :=
            setKey s.transaction_history t.transaction_id ⟨t.client_id, t.amount, false⟩ }
  else s

/-- The empty state the run starts from (`HashMap::new()` twice). -/
def initState : EngineState := ⟨[], []⟩

/-- Replaying a whole event stream in input order. -/
def applyEvents (s : EngineState) (es : List Transaction) : EngineState :=
  es.foldl applyEvent s

/-- A parsed deposit row. -/
def depositTx (c t : ℕ) (a : ℚ) : Transaction := ⟨"deposit", c, t, a⟩

/-- A parsed withdrawal row. -/
def withdrawalTx (c t : ℕ) (a : ℚ) : Transaction := ⟨"withdrawal", c, t, a⟩

/-- A parsed dispute row; `a` is the parsed amount field (`0` when the CSV
field is empty, per `Transaction::from_record`). -/
def disputeTx (c t : ℕ) (a : ℚ) : Transaction := ⟨"dispute", c, t, a⟩

/-- A parsed resolve row; `a` as in `disputeTx`. -/
def resolveTx (c t : ℕ) (a : ℚ) : Transaction := ⟨"resolve", c, t, a⟩

/-- A parsed chargeback row; `a` as in `disputeTx`. -/
def chargebackTx (c t : ℕ) (a : ℚ) : Transaction := ⟨"chargeback", c, t, a⟩

/-- The business-rule violations that the event loop skips with no mutation:
duplicate `transaction_id` on a deposit/withdrawal; unknown transaction
reference on a dispute/resolve/chargeback; owner mismatch on a dispute;
resolve/chargeback of a transaction that is not currently disputed; any event
whose `client_id` refers to a frozen account. -/
def businessRuleSkip (s : EngineState) (t : Transaction) : Prop :=
  ((t.transaction_type = "deposit" ∨ t.transaction_type = "withdrawal") ∧
    (lookupKey s.transaction_history t.transaction_id).isSome = true) ∨
  ((t.transaction_type = "dispute" ∨ t.transaction_type = "resolve" ∨
      t.transaction_type = "chargeback") ∧
    lookupKey s.transaction_history t.transaction_id = none) ∨
  (t.transaction_type = "dispute" ∧
    ∃ r, lookupKey s.transaction_history t.transaction_id = some r ∧
      r.client_id ≠ t.client_id) ∨
  ((t.transaction_type = "resolve" ∨ t.transaction_type = "chargeback") ∧
    ∃ r, lookupKey s.transaction_history t.transaction_id = some r ∧
      r.disputed = false) ∨
  accountFrozen s t.client_id = true

/-- Every transaction record's recorded owner has an account.  This holds in
every reachable state: deposits/withdrawals create the owner's account, and
the history rewrite in the resolve/chargeback arm sets the owner to the event
client, whose account the `or_insert` has just created. -/
def ownersHaveAccounts (s : EngineState) : Prop :=
  ∀ k r, lookupKey s.transaction_history k = some r →
    (lookupKey s.clients r.client_id).isSome = true

/-- Every account satisfies `total = available + held` (exact arithmetic). -/
def balancedState (s : EngineState) : Prop :=
  ∀ c a, lookupKey s.clients c = some a → a.total = a.available + a.held

/-! ## Association-list lemmas -/

theorem lookupKey_setKey_self {α : Type} (m : List (ℕ × α)) (k : ℕ) (v : α) :
    lookupKey (setKey m k v) k = some v := by
  induction m with
  | nil => simp [setKey, lookupKey]
  | cons hd tl ih =>
    obtain ⟨k', v'⟩ := hd
    by_cases h : k' = k
    · simp [setKey, lookupKey, h]
    · simp [setKey, lookupKey, h, ih]

theorem lookupKey_setKey_ne {α : Type} (m : List (ℕ × α)) (k k' : ℕ) (v : α)
    (h : k ≠ k') : lookupKey (setKey m k v) k' = lookupKey m k' := by
  induction m with
  | nil => simp [setKey, lookupKey, h]
  | cons hd tl ih =>
    obtain ⟨k₀, v₀⟩ := hd
    by_cases h0 : k₀ = k
    · subst h0
      simp [setKey, lookupKey, h]
    · simp [setKey, lookupKey, h0, ih]

/-! ## Characterization of the event-loop branches -/

/-- The frozen-account check at the top of the loop skips every event type. -/
theorem applyEvent_frozen (s : EngineState) (t : Transaction)
    (h : accountFrozen s t.client_id = true) : applyEvent s t = s := by
  simp [applyEvent, h]

/-- Deposit/withdrawal with a `transaction_id` already in the history is a
no-op (the duplicate check in `main`). -/
theorem applyEvent_dup (s : EngineState) (t : Transaction)
    (h1 : t.transaction_type = "deposit" ∨ t.transaction_type = "withdrawal")
    (h2 : (lookupKey s.transaction_history t.transaction_id).isSome = true) :
    applyEvent s t = s := by
  by_cases hf : accountFrozen s t.client_id
  · simp [applyEvent, hf]
  · simp [applyEvent, hf, h1, h2]

/-- An accepted deposit/withdrawal: updates the client's account and records
the transaction with the event's amount and `disputed = false`. -/
theorem applyEvent_depwd (s : EngineState) (t : Transaction)
    (hf : accountFrozen s t.client_id = false)
    (h1 : t.transaction_type = "deposit" ∨ t.transaction_type = "withdrawal")
    (h2 : lookupKey s.transaction_history t.transaction_id = none) :
    applyEvent s t =
      ⟨deposit_or_withdrawal t s.clients t.transaction_type,
       setKey s.transaction_history t.transaction_id ⟨t.client_id, t.amount, false⟩⟩ := by
  simp [applyEvent, hf, h1, h2]

/-- A dispute whose transaction is unknown is a no-op. -/
theorem applyEvent_dispute_unknown (s : EngineState) (t : Transaction)
    (h1 : t.transaction_type = "dispute")
    (h2 : lookupKey s.transaction_history t.transaction_id = none) :
    applyEvent s t = s := by
  by_cases hf : accountFrozen s t.client_id
  · simp [applyEvent, hf]
  · simp [applyEvent, hf, h1, h2]

/-- A dispute whose `client_id` does not match the recorded owner is a no-op. -/
theorem applyEvent_dispute_mismatch (s : EngineState) (t : Transaction)
    (r : TxRecord) (h1 : t.transaction_type = "dispute")
    (h2 : lookupKey s.transaction_history t.transaction_id = some r)
    (h3 : r.client_id ≠ t.client_id) : applyEvent s t = s := by
  by_cases hf : accountFrozen s t.client_id
  · simp [applyEvent, hf]
  · simp [applyEvent, hf, h1, h2, h3]

/-- An accepted dispute (transaction known, owner matches — the `disputed`
flag is NOT consulted): moves the recorded amount from `available` to `held`,
recomputes `total`, and re-records the transaction with the recorded amount
and `disputed = true`. -/
theorem applyEvent_dispute_ok (s : EngineState) (t : Transaction) (r : TxRecord)
    (hf : accountFrozen s t.client_id = false)
    (h1 : t.transaction_type = "dispute")
    (h2 : lookupKey s.transaction_history t.transaction_id = some r)
    (h3 : r.client_id = t.client_id) :
    applyEvent s t =
      ⟨setKey s.clients t.client_id
        (let acc := (lookupKey s.clients t.client_id).getD emptyAccount
         ⟨acc.available - r.amount, acc.held + r.amount,
          (acc.available - r.amount) + (acc.held + r.amount), acc.frozen⟩),
       setKey s.transaction_history t.transaction_id ⟨t.client_id, r.amount, true⟩⟩ := by
  simp [applyEvent, hf, h1, h2, h3, dispute]

/-- A resolve/chargeback whose transaction is unknown is a no-op. -/
theorem applyEvent_rescb_unknown (s : EngineState) (t : Transaction)
    (h1 : t.transaction_type = "resolve" ∨ t.transaction_type = "chargeback")
    (h2 : lookupKey s.transaction_history t.transaction_id = none) :
    applyEvent s t = s := by
  by_cases hf : accountFrozen s t.client_id
  · simp [applyEvent, hf]
  · rcases h1 with h1 | h1 <;> simp [applyEvent, hf, h1, h2]

/-- A resolve/chargeback of a transaction that is not currently disputed is a
no-op. -/
theorem applyEvent_rescb_notdisputed (s : EngineState) (t : Transaction)
    (r : TxRecord)
    (h1 : t.transaction_type = "resolve" ∨ t.transaction_type = "chargeback")
    (h2 : lookupKey s.transaction_history t.transaction_id = some r)
    (h3 : r.disputed = false) : applyEvent s t = s := by
  by_cases hf : accountFrozen s t.client_id
  · simp [applyEvent, hf]
  · rcases h1 with h1 | h1 <;> simp [applyEvent, hf, h1, h2, h3]

/-- A resolve/chargeback of a disputed transaction whose owner does NOT match
the event's `client_id`: the balances are untouched, but the `or_insert` in
`Transaction::resolve_or_chargeback` has already (re)written the event
client's account, and `main` still overwrites the history record with the
event's own `client_id` and `amount`, clearing `disputed`. -/
theorem applyEvent_rescb_mismatch (s : EngineState) (t : Transaction)
    (r : TxRecord)
    (hf : accountFrozen s t.client_id = false)
    (h1 : t.transaction_type = "resolve" ∨ t.transaction_type = "chargeback")
    (h2 : lookupKey s.transaction_history t.transaction_id = some r)
    (h3 : r.disputed = true) (h4 : r.client_id ≠ t.client_id) :
    applyEvent s t =
      ⟨setKey s.clients t.client_id ((lookupKey s.clients t.client_id).getD emptyAccount),
       setKey s.transaction_history t.transaction_id ⟨t.client_id, t.amount, false⟩⟩ := by
  rcases h1 with h1 | h1 <;>
    simp [applyEvent, hf, h1, h2, h3, resolve_or_chargeback, h4]

/-- An accepted resolve: moves the RECORDED amount from `held` back to
`available`, recomputes `total`, and overwrites the history record with the
event's own amount and `disputed = false`. -/
theorem applyEvent_resolve_ok (s : EngineState) (t : Transaction) (r : TxRecord)
    (hf : accountFrozen s t.client_id = false)
    (h1 : t.transaction_type = "resolve")
    (h2 : lookupKey s.transaction_history t.transaction_id = some r)
    (h3 : r.disputed = true) (h4 : r.client_id = t.client_id) :
    applyEvent s t =
      ⟨setKey s.clients t.client_id
        (let acc := (lookupKey s.clients t.client_id).getD emptyAccount
         ⟨acc.available + r.amount, acc.held - r.amount,
          (acc.available + r.amount) + (acc.held - r.amount), acc.frozen⟩),
       setKey s.transaction_history t.transaction_id ⟨t.client_id, t.amount, false⟩⟩ := by
  simp [applyEvent, hf, h1, h2, h3, h4, resolve_or_chargeback]

/-- An accepted chargeback: removes the RECORDED amount from `held`, freezes
the account, recomputes `total`, and overwrites the history record with the
event's own amount and `disputed = false`. -/
theorem applyEvent_chargeback_ok (s : EngineState) (t : Transaction)
    (r : TxRecord)
    (hf : accountFrozen s t.client_id = false)
    (h1 : t.transaction_type = "chargeback")
    (h2 : lookupKey s.transaction_history t.transaction_id = some r)
    (h3 : r.disputed = true) (h4 : r.client_id = t.client_id) :
    applyEvent s t =
      ⟨setKey s.clients t.client_id
        (let acc := (lookupKey s.clients t.client_id).getD emptyAccount
         ⟨acc.available, acc.held - r.amount,
          acc.available + (acc.held - r.amount), true⟩),
       setKey s.transaction_history t.transaction_id ⟨t.client_id, t.amount, false⟩⟩ := by
  simp [applyEvent, hf, h1, h2, h3, h4, resolve_or_chargeback]

/-! ## Persistence and invariant lemmas -/

theorem lookupKey_setKey_isSome {α : Type} (m : List (ℕ × α)) (k : ℕ) (v : α)
    (c : ℕ) (h : (lookupKey m c).isSome = true) :
    (lookupKey (setKey m k v) c).isSome = true := by
  by_cases hk : k = c
  · subst hk
    simp [lookupKey_setKey_self]
  · rw [lookupKey_setKey_ne _ _ _ _ hk]
    exact h

/-- Every branch of `applyEvent` either leaves the state alone or rewrites the
event client's account entry together with the event transaction's history
entry (whose recorded owner becomes the event's `client_id`). -/
theorem applyEvent_shape (s : EngineState) (t : Transaction) :
    applyEvent s t = s ∨
    ∃ a r, (applyEvent s t).clients = setKey s.clients t.client_id a ∧
      (applyEvent s t).transaction_history =
        setKey s.transaction_history t.transaction_id r ∧
      r.client_id = t.client_id := by
  unfold applyEvent
  repeat' split
  all_goals try (left ; rfl)
  · -- accepted deposit/withdrawal
    right
    unfold deposit_or_withdrawal
    exact ⟨_, _, rfl, rfl, rfl⟩
  · -- accepted dispute
    right
    unfold dispute
    split
    · exact ⟨_, _, rfl, rfl, rfl⟩
    · exact ⟨_, _, rfl, rfl, rfl⟩
  · -- accepted resolve/chargeback
    right
    unfold resolve_or_chargeback
    split
    · exact ⟨_, _, rfl, rfl, rfl⟩
    · split
      · exact ⟨_, _, rfl, rfl, rfl⟩
      · exact ⟨_, _, rfl, rfl, rfl⟩

/-- Events never touch another client's account entry. -/
theorem lookupKey_clients_applyEvent_ne (s : EngineState) (t : Transaction)
    (c : ℕ) (h : t.client_id ≠ c) :
    lookupKey (applyEvent s t).clients c = lookupKey s.clients c := by
  rcases applyEvent_shape s t with heq | ⟨a, r, hc, _, _⟩
  · rw [heq]
  · rw [hc, lookupKey_setKey_ne _ _ _ _ h]

/-- A frozen account stays frozen across any single event. -/
theorem accountFrozen_applyEvent (s : EngineState) (t : Transaction) (c : ℕ)
    (h : accountFrozen s c = true) : accountFrozen (applyEvent s t) c = true := by
  by_cases hc : t.client_id = c
  · subst hc
    rw [applyEvent_frozen s t h]
    exact h
  · unfold accountFrozen at h ⊢
    rw [lookupKey_clients_applyEvent_ne s t c hc]
    exact h

/-- A frozen account stays frozen across any event stream. -/
theorem accountFrozen_applyEvents (s : EngineState) (es : List Transaction)
    (c : ℕ) (h : accountFrozen s c = true) :
    accountFrozen (applyEvents s es) c = true := by
  induction es generalizing s with
  | nil => exact h
  | cons e tl ih =>
    simp only [applyEvents, List.foldl_cons]
    exact ih _ (accountFrozen_applyEvent _ _ _ h)

/-- A transaction id present in the history stays present (records are
overwritten but never removed). -/
theorem history_isSome_applyEvent (s : EngineState) (t : Transaction) (k : ℕ)
    (h : (lookupKey s.transaction_history k).isSome = true) :
    (lookupKey (applyEvent s t).transaction_history k).isSome = true := by
  rcases applyEvent_shape s t with heq | ⟨a, r, _, hh, _⟩
  · rw [heq]
    exact h
  · rw [hh]
    exact lookupKey_setKey_isSome _ _ _ _ h

theorem ownersHaveAccounts_applyEvent (s : EngineState) (t : Transaction)
    (h : ownersHaveAccounts s) : ownersHaveAccounts (applyEvent s t) := by
  rcases applyEvent_shape s t with heq | ⟨a, r, hc, hh, ho⟩
  · rw [heq]
    exact h
  · intro k r' hk
    rw [hh] at hk
    rw [hc]
    by_cases htx : t.transaction_id = k
    · subst htx
      rw [lookupKey_setKey_self] at hk
      cases hk
      rw [ho]
      simp [lookupKey_setKey_self]
    · rw [lookupKey_setKey_ne _ _ _ _ htx] at hk
      exact lookupKey_setKey_isSome _ _ _ _ (h k r' hk)

theorem ownersHaveAccounts_applyEvents (s : EngineState) (es : List Transaction)
    (h : ownersHaveAccounts s) : ownersHaveAccounts (applyEvents s es) := by
  induction es generalizing s with
  | nil => exact h
  | cons e tl ih =>
    simp only [applyEvents, List.foldl_cons]
    exact ih _ (ownersHaveAccounts_applyEvent _ _ h)

theorem ownersHaveAccounts_initState : ownersHaveAccounts initState := by
  intro k r hk
  simp [initState, lookupKey] at hk

/-- In every reachable state, each recorded owner has an account. -/
theorem ownersHaveAccounts_reachable (es : List Transaction) :
    ownersHaveAccounts (applyEvents initState es) :=
  ownersHaveAccounts_applyEvents _ _ ownersHaveAccounts_initState

theorem balanced_setKey (m : List (ℕ × Account)) (k : ℕ) (a : Account)
    (h : ∀ c b, lookupKey m c = some b → b.total = b.available + b.held)
    (ha : a.total = a.available + a.held) :
    ∀ c b, lookupKey (setKey m k a) c = some b → b.total = b.available + b.held := by
  intro c b hb
  by_cases hk : k = c
  · subst hk
    rw [lookupKey_setKey_self] at hb
    cases hb
    exact ha
  · rw [lookupKey_setKey_ne _ _ _ _ hk] at hb
    exact h _ _ hb

theorem balanced_getD (m : List (ℕ × Account)) (k : ℕ)
    (h : ∀ c b, lookupKey m c = some b → b.total = b.available + b.held) :
    ((lookupKey m k).getD emptyAccount).total =
      ((lookupKey m k).getD emptyAccount).available +
        ((lookupKey m k).getD emptyAccount).held := by
  cases hl : lookupKey m k with
  | none => simp [emptyAccount]
  | some b => simpa using h _ _ hl

theorem balanced_deposit_or_withdrawal (t : Transaction)
    (cl : List (ℕ × Account)) (action : String)
    (h : ∀ c b, lookupKey cl c = some b → b.total = b.available + b.held) :
    ∀ c b, lookupKey (deposit_or_withdrawal t cl action) c = some b →
      b.total = b.available + b.held := by
  have hacc := balanced_getD cl t.client_id h
  unfold deposit_or_withdrawal
  apply balanced_setKey _ _ _ h
  split_ifs <;> first
  | exact hacc
  | (simp ; linarith)

theorem balanced_dispute (t : Transaction) (cl : List (ℕ × Account))
    (hist : List (ℕ × TxRecord))
    (h : ∀ c b, lookupKey cl c = some b → b.total = b.available + b.held) :
    ∀ c b, lookupKey (dispute t cl hist) c = some b →
      b.total = b.available + b.held := by
  have hacc := balanced_getD cl t.client_id h
  unfold dispute
  split
  · exact balanced_setKey _ _ _ h hacc
  · exact balanced_setKey _ _ _ h rfl

theorem balanced_resolve_or_chargeback (t : Transaction)
    (cl : List (ℕ × Account)) (hist : List (ℕ × TxRecord)) (action : String)
    (h : ∀ c b, lookupKey cl c = some b → b.total = b.available + b.held) :
    ∀ c b, lookupKey (resolve_or_chargeback t cl hist action) c = some b →
      b.total = b.available + b.held := by
  have hacc := balanced_getD cl t.client_id h
  unfold resolve_or_chargeback
  split
  · exact balanced_setKey _ _ _ h hacc
  · split
    · exact balanced_setKey _ _ _ h hacc
    · exact balanced_setKey _ _ _ h rfl

theorem balancedState_applyEvent (s : EngineState) (t : Transaction)
    (h : balancedState s) : balancedState (applyEvent s t) := by
  unfold applyEvent
  repeat' split
  all_goals try exact h
  · exact fun c a ha => balanced_deposit_or_withdrawal t s.clients _ h c a ha
  · exact fun c a ha => balanced_dispute t s.clients s.transaction_history h c a ha
  · exact fun c a ha =>
      balanced_resolve_or_chargeback t s.clients s.transaction_history _ h c a ha

theorem balancedState_initState : balancedState initState := by
  intro c a ha
  simp [initState, lookupKey] at ha

/-- Under exact (rational) arithmetic, `total = available + held` holds for
every account after every event of every stream.  (Whether the equality is
exact under the source's `f64` arithmetic is a separate question about
IEEE-754 rounding, outside this embedding.) -/
theorem totals_balanced_exact (es : List Transaction) :
    balancedState (applyEvents initState es) := by
  have : ∀ s, balancedState s → balancedState (applyEvents s es) := by
    induction es with
    | nil => exact fun s hs => hs
    | cons e tl ih =>
      intro s hs
      simp only [applyEvents, List.foldl_cons]
      exact ih _ (balancedState_applyEvent _ _ hs)
  exact this _ balancedState_initState

/-! ## Claims -/

/-- C9 counterexample: on the spec's end-to-end example the code yields
account 1 with `available = -0.5`, `held = 2`, `total = 1.5` (the dispute of
transaction 3 subtracts the recorded amount 2 from `available` and recomputes
`total`), not the claimed `available = 1.5`, `total = 3.5`. -/
theorem c9_counterexample :
    lookupKey (applyEvents initState
        [depositTx 1 1 1, depositTx 2 2 2, depositTx 1 3 2,
         withdrawalTx 1 4 (3/2), disputeTx 1 3 0]).clients 1 =
      some ⟨-(1/2), 2, 3/2, false⟩ ∧
    ¬ lookupKey (applyEvents initState
        [depositTx 1 1 1, depositTx 2 2 2, depositTx 1 3 2,
         withdrawalTx 1 4 (3/2), disputeTx 1 3 0]).clients 1 =
      some ⟨3/2, 2, 7/2, false⟩ := by
  constructor <;>
    simp [applyEvents, applyEvent, accountFrozen, dispute, deposit_or_withdrawal,
      resolve_or_chargeback, lookupKey, setKey, initState, emptyAccount,
      depositTx, withdrawalTx, disputeTx] <;>
    norm_num

/-- C9 (amended): applying the five example events in order to the empty state
yields account 1 with `available = -0.5`, `held = 2`, `total = 1.5`,
`locked = false`, and account 2 with `available = 2`, `held = 0`, `total = 2`,
`locked = false`. -/
theorem c9_end_to_end :
    lookupKey (applyEvents initState
        [depositTx 1 1 1, depositTx 2 2 2, depositTx 1 3 2,
         withdrawalTx 1 4 (3/2), disputeTx 1 3 0]).clients 1 =
      some ⟨-(1/2), 2, 3/2, false⟩ ∧
    lookupKey (applyEvents initState
        [depositTx 1 1 1, depositTx 2 2 2, depositTx 1 3 2,
         withdrawalTx 1 4 (3/2), disputeTx 1 3 0]).clients 2 =
      some ⟨2, 0, 2, false⟩ := by
  constructor <;>
    simp [applyEvents, applyEvent, accountFrozen, dispute, deposit_or_withdrawal,
      resolve_or_chargeback, lookupKey, setKey, initState, emptyAccount,
      depositTx, withdrawalTx, disputeTx] <;>
    norm_num

/-- C6: deposit of `a` for client `c`, then dispute and resolve of that
transaction with the matching client: the account returns to the pre-dispute
`available`/`held` split `(a, 0)` and the transaction record is
`disputed = false` again — for any amounts carried by the dispute and resolve
rows themselves. -/
theorem c6_dispute_roundtrip (c t : ℕ) (a r1 r2 : ℚ) :
    lookupKey (applyEvents initState
        [depositTx c t a, disputeTx c t r1, resolveTx c t r2]).clients c =
      lookupKey (applyEvents initState [depositTx c t a]).clients c ∧
    lookupKey (applyEvents initState [depositTx c t a]).clients c =
      some ⟨a, 0, a, false⟩ ∧
    (lookupKey (applyEvents initState
        [depositTx c t a, disputeTx c t r1, resolveTx c t r2]).transaction_history
        t).map TxRecord.disputed = some false := by
  refine ⟨?_, ?_, ?_⟩ <;>
    simp [applyEvents, applyEvent, accountFrozen, dispute, deposit_or_withdrawal,
      resolve_or_chargeback, lookupKey, setKey, initState, emptyAccount,
      depositTx, disputeTx, resolveTx]

/-- C2 counterexample: a chargeback whose `client_id` (2) does not match the
recorded owner (1) of the disputed transaction changes BOTH tables: the
`or_insert` in `Transaction::resolve_or_chargeback` creates an account for
client 2, and `main` overwrites history entry 1 with owner 2, amount 0,
`disputed = false`. -/
theorem c2_counterexample :
    (applyEvent (applyEvents initState [depositTx 1 1 5, disputeTx 1 1 0])
        (chargebackTx 2 1 0)).clients ≠
      (applyEvents initState [depositTx 1 1 5, disputeTx 1 1 0]).clients ∧
    (applyEvent (applyEvents initState [depositTx 1 1 5, disputeTx 1 1 0])
        (chargebackTx 2 1 0)).transaction_history ≠
      (applyEvents initState [depositTx 1 1 5, disputeTx 1 1 0]).transaction_history := by
  constructor <;>
    simp [applyEvents, applyEvent, accountFrozen, dispute, deposit_or_withdrawal,
      resolve_or_chargeback, lookupKey, setKey, initState, emptyAccount,
      depositTx, disputeTx, chargebackTx]

/-- C2 (amended): the skip-with-no-mutation guarantee holds for duplicate
transaction ids, unknown transaction references, dispute owner mismatches,
resolve/chargeback of not-currently-disputed transactions, and events
targeting a locked account; but a resolve/chargeback of a disputed
transaction whose owner mismatches leaves balances alone while still
(re)writing the event client's account entry (creating it when absent) and
overwriting the history record with the event's own client id and amount,
clearing `disputed`. -/
theorem c2_skip_or_overwrite (s : EngineState) (t : Transaction) :
    (businessRuleSkip s t → applyEvent s t = s) ∧
    (∀ r : TxRecord,
      (t.transaction_type = "resolve" ∨ t.transaction_type = "chargeback") →
      accountFrozen s t.client_id = false →
      lookupKey s.transaction_history t.transaction_id = some r →
      r.disputed = true → r.client_id ≠ t.client_id →
      applyEvent s t =
        ⟨setKey s.clients t.client_id
            ((lookupKey s.clients t.client_id).getD emptyAccount),
         setKey s.transaction_history t.transaction_id
            ⟨t.client_id, t.amount, false⟩⟩) := by
  constructor
  · intro hv
    rcases hv with ⟨h1, h2⟩ | ⟨h1, h2⟩ | ⟨h1, r, h2, h3⟩ | ⟨h1, r, h2, h3⟩ | h
    · exact applyEvent_dup s t h1 h2
    · rcases h1 with h1 | h1 | h1
      · exact applyEvent_dispute_unknown s t h1 h2
      · exact applyEvent_rescb_unknown s t (Or.inl h1) h2
      · exact applyEvent_rescb_unknown s t (Or.inr h1) h2
    · exact applyEvent_dispute_mismatch s t r h1 h2 h3
    · exact applyEvent_rescb_notdisputed s t r h1 h2 h3
    · exact applyEvent_frozen s t h
  · intro r h1 hf h2 h3 h4
    exact applyEvent_rescb_mismatch s t r hf h1 h2 h3 h4

/-- C2 witness: a duplicate deposit (same transaction id 1, different client)
is a no-op, and the owner-mismatch chargeback of the counterexample lands
exactly on the creating/overwriting state the theorem describes. -/
theorem c2_witness :
    businessRuleSkip (applyEvents initState [depositTx 1 1 5]) (depositTx 2 1 3) ∧
    applyEvent (applyEvents initState [depositTx 1 1 5]) (depositTx 2 1 3) =
      applyEvents initState [depositTx 1 1 5] ∧
    applyEvent (applyEvents initState [depositTx 1 1 5, disputeTx 1 1 0])
        (chargebackTx 2 1 0) =
      ⟨setKey (applyEvents initState [depositTx 1 1 5, disputeTx 1 1 0]).clients 2
          ((lookupKey (applyEvents initState
              [depositTx 1 1 5, disputeTx 1 1 0]).clients 2).getD emptyAccount),
       setKey (applyEvents initState
          [depositTx 1 1 5, disputeTx 1 1 0]).transaction_history 1
          ⟨2, 0, false⟩⟩ := by
  have hskip : businessRuleSkip (applyEvents initState [depositTx 1 1 5])
      (depositTx 2 1 3) := by
    left
    constructor
    · left
      rfl
    · simp [applyEvents, applyEvent, accountFrozen, deposit_or_withdrawal,
        lookupKey, setKey, initState, emptyAccount, depositTx]
  refine ⟨hskip,
    (c2_skip_or_overwrite (applyEvents initState [depositTx 1 1 5])
      (depositTx 2 1 3)).1 hskip,
    (c2_skip_or_overwrite (applyEvents initState [depositTx 1 1 5, disputeTx 1 1 0])
      (chargebackTx 2 1 0)).2 ⟨1, 5, true⟩ (Or.inr rfl) ?_ ?_ rfl ?_⟩
  · simp [applyEvents, applyEvent, accountFrozen, dispute, deposit_or_withdrawal,
      lookupKey, setKey, initState, emptyAccount, depositTx, disputeTx, chargebackTx]
  · simp [applyEvents, applyEvent, accountFrozen, dispute, deposit_or_withdrawal,
      lookupKey, setKey, initState, emptyAccount, depositTx, disputeTx, chargebackTx]
  · simp [chargebackTx]

/-- C3 counterexample: with transaction 1 already disputed, a second dispute
of it is NOT skipped: it moves the recorded amount 5 from `available` to
`held` a second time, ending at `available = -5`, `held = 10`. -/
theorem c3_counterexample :
    applyEvent (applyEvents initState [depositTx 1 1 5, disputeTx 1 1 0])
        (disputeTx 1 1 0) ≠
      applyEvents initState [depositTx 1 1 5, disputeTx 1 1 0] ∧
    (applyEvent (applyEvents initState [depositTx 1 1 5, disputeTx 1 1 0])
        (disputeTx 1 1 0)).clients = [(1, ⟨-5, 10, 5, false⟩)] := by
  constructor <;>
    simp [applyEvents, applyEvent, accountFrozen, dispute, deposit_or_withdrawal,
      lookupKey, setKey, initState, emptyAccount, depositTx, disputeTx] <;>
    norm_num

/-- C3 (amended): a dispute is skipped only when the transaction id is
unknown or the recorded owner mismatches (or the account is frozen); when the
transaction exists and the owner matches, the dispute is applied regardless
of the record's `disputed` flag — so each accepted dispute, including a
repeat of an already-disputed transaction, moves the recorded amount from
`available` to `held` again. -/
theorem c3_dispute_reapplied (s : EngineState) (t : Transaction) (r : TxRecord)
    (hf : accountFrozen s t.client_id = false)
    (h1 : t.transaction_type = "dispute")
    (h2 : lookupKey s.transaction_history t.transaction_id = some r)
    (h3 : r.client_id = t.client_id) :
    applyEvent s t =
      ⟨setKey s.clients t.client_id
        (let acc := (lookupKey s.clients t.client_id).getD emptyAccount
         ⟨acc.available - r.amount, acc.held + r.amount,
          (acc.available - r.amount) + (acc.held + r.amount), acc.frozen⟩),
       setKey s.transaction_history t.transaction_id
          ⟨t.client_id, r.amount, true⟩⟩ :=
  applyEvent_dispute_ok s t r hf h1 h2 h3

/-- C3 witness: the second dispute of transaction 1 (already disputed, owner
matching, account unfrozen) is re-applied and lands on `available = -5`,
`held = 10`. -/
theorem c3_witness :
    applyEvent (applyEvents initState [depositTx 1 1 5, disputeTx 1 1 0])
        (disputeTx 1 1 0) =
      ⟨[(1, ⟨-5, 10, 5, false⟩)], [(1, ⟨1, 5, true⟩)]⟩ := by
  rw [c3_dispute_reapplied (applyEvents initState [depositTx 1 1 5, disputeTx 1 1 0])
    (disputeTx 1 1 0) ⟨1, 5, true⟩ ?_ rfl ?_ rfl]
  · simp [applyEvents, applyEvent, accountFrozen, dispute, deposit_or_withdrawal,
      lookupKey, setKey, initState, emptyAccount, depositTx, disputeTx]
    norm_num
  · simp [applyEvents, applyEvent, accountFrozen, dispute, deposit_or_withdrawal,
      lookupKey, setKey, initState, emptyAccount, depositTx, disputeTx]
  · simp [applyEvents, applyEvent, accountFrozen, dispute, deposit_or_withdrawal,
      lookupKey, setKey, initState, emptyAccount, depositTx, disputeTx]

/-- C4 counterexample: account 1 is locked after a chargeback; transaction 2
exists, its owner matches, and it is not disputed, so the claimed
dispute-lifecycle processing would mark it disputed — but the event is
skipped outright by the frozen-account check, leaving the state unchanged. -/
theorem c4_counterexample :
    applyEvent (applyEvents initState
        [depositTx 1 1 5, depositTx 1 2 3, disputeTx 1 1 0, chargebackTx 1 1 0])
        (disputeTx 1 2 0) =
      applyEvents initState
        [depositTx 1 1 5, depositTx 1 2 3, disputeTx 1 1 0, chargebackTx 1 1 0] ∧
    lookupKey (applyEvents initState
        [depositTx 1 1 5, depositTx 1 2 3, disputeTx 1 1 0, chargebackTx 1 1 0]).transaction_history
        2 = some ⟨1, 3, false⟩ ∧
    lookupKey (applyEvents initState
        [depositTx 1 1 5, depositTx 1 2 3, disputeTx 1 1 0, chargebackTx 1 1 0]).clients
        1 = some ⟨3, 0, 3, true⟩ := by
  refine ⟨?_, ?_, ?_⟩ <;>
    simp [applyEvents, applyEvent, accountFrozen, dispute, deposit_or_withdrawal,
      resolve_or_chargeback, lookupKey, setKey, initState, emptyAccount,
      depositTx, disputeTx, chargebackTx]

/-- C4 (amended): the frozen-account check at the top of the event loop
suppresses EVERY event type for a locked account — dispute, resolve and
chargeback events whose `client_id` refers to a locked account are skipped
just like deposits and withdrawals. -/
theorem c4_lock_suppresses_all (s : EngineState) (t : Transaction)
    (h : accountFrozen s t.client_id = true) : applyEvent s t = s :=
  applyEvent_frozen s t h

/-- C4 witness: on the locked account of the counterexample state, a dispute
of the undisputed transaction 2 is skipped. -/
theorem c4_witness :
    accountFrozen (applyEvents initState
        [depositTx 1 1 5, depositTx 1 2 3, disputeTx 1 1 0, chargebackTx 1 1 0]) 1 = true ∧
    applyEvent (applyEvents initState
        [depositTx 1 1 5, depositTx 1 2 3, disputeTx 1 1 0, chargebackTx 1 1 0])
        (disputeTx 1 2 0) =
      applyEvents initState
        [depositTx 1 1 5, depositTx 1 2 3, disputeTx 1 1 0, chargebackTx 1 1 0] := by
  have h : accountFrozen (applyEvents initState
      [depositTx 1 1 5, depositTx 1 2 3, disputeTx 1 1 0, chargebackTx 1 1 0]) 1 = true := by
    simp [applyEvents, applyEvent, accountFrozen, dispute, deposit_or_withdrawal,
      resolve_or_chargeback, lookupKey, setKey, initState, emptyAccount,
      depositTx, disputeTx, chargebackTx]
  exact ⟨h, c4_lock_suppresses_all _ (disputeTx 1 2 0) h⟩

/-- C5 counterexample: after deposit(client 1, tx 1, amount 5) → dispute →
resolve (whose own amount field parses to 0), the history record's amount is
0, not the originally deposited 5: the resolve arm in `main` overwrote it
with the resolve event's own amount. -/
theorem c5_counterexample :
    lookupKey (applyEvents initState
        [depositTx 1 1 5, disputeTx 1 1 0, resolveTx 1 1 0]).transaction_history 1 =
      some ⟨1, 0, false⟩ ∧
    (⟨1, 0, false⟩ : TxRecord) ≠ ⟨1, 5, false⟩ := by
  constructor
  · simp [applyEvents, applyEvent, accountFrozen, dispute, deposit_or_withdrawal,
      resolve_or_chargeback, lookupKey, setKey, initState, emptyAccount,
      depositTx, disputeTx, resolveTx]
  · simp

/-- C5 (amended): an accepted deposit/withdrawal records the event's amount;
an accepted dispute preserves the recorded amount (and moves exactly that
recorded amount from `available` to `held`); an accepted resolve/chargeback
moves the recorded amount but then overwrites the record with the lifecycle
event's own amount (and owner), clearing `disputed` — so the recorded amount
is only guaranteed unchanged until the first successful resolve/chargeback. -/
theorem c5_recorded_amount (s : EngineState) (t : Transaction) (r : TxRecord) :
    (accountFrozen s t.client_id = false →
      (t.transaction_type = "deposit" ∨ t.transaction_type = "withdrawal") →
      lookupKey s.transaction_history t.transaction_id = none →
      lookupKey (applyEvent s t).transaction_history t.transaction_id =
        some ⟨t.client_id, t.amount, false⟩) ∧
    (accountFrozen s t.client_id = false →
      t.transaction_type = "dispute" →
      lookupKey s.transaction_history t.transaction_id = some r →
      r.client_id = t.client_id →
      lookupKey (applyEvent s t).transaction_history t.transaction_id =
        some ⟨t.client_id, r.amount, true⟩ ∧
      lookupKey (applyEvent s t).clients t.client_id =
        some (let acc := (lookupKey s.clients t.client_id).getD emptyAccount
              ⟨acc.available - r.amount, acc.held + r.amount,
               (acc.available - r.amount) + (acc.held + r.amount), acc.frozen⟩)) ∧
    (accountFrozen s t.client_id = false →
      t.transaction_type = "resolve" →
      lookupKey s.transaction_history t.transaction_id = some r →
      r.disputed = true → r.client_id = t.client_id →
      lookupKey (applyEvent s t).transaction_history t.transaction_id =
        some ⟨t.client_id, t.amount, false⟩ ∧
      lookupKey (applyEvent s t).clients t.client_id =
        some (let acc := (lookupKey s.clients t.client_id).getD emptyAccount
              ⟨acc.available + r.amount, acc.held - r.amount,
               (acc.available + r.amount) + (acc.held - r.amount), acc.frozen⟩)) ∧
    (accountFrozen s t.client_id = false →
      t.transaction_type = "chargeback" →
      lookupKey s.transaction_history t.transaction_id = some r →
      r.disputed = true → r.client_id = t.client_id →
      lookupKey (applyEvent s t).transaction_history t.transaction_id =
        some ⟨t.client_id, t.amount, false⟩ ∧
      lookupKey (applyEvent s t).clients t.client_id =
        some (let acc := (lookupKey s.clients t.client_id).getD emptyAccount
              ⟨acc.available, acc.held - r.amount,
               acc.available + (acc.held - r.amount), true⟩)) := by
  refine ⟨?_, ?_, ?_, ?_⟩
  · intro hf h1 h2
    rw [applyEvent_depwd s t hf h1 h2]
    simp [lookupKey_setKey_self]
  · intro hf h1 h2 h3
    rw [applyEvent_dispute_ok s t r hf h1 h2 h3]
    simp [lookupKey_setKey_self]
  · intro hf h1 h2 h3 h4
    rw [applyEvent_resolve_ok s t r hf h1 h2 h3 h4]
    simp [lookupKey_setKey_self]
  · intro hf h1 h2 h3 h4
    rw [applyEvent_chargeback_ok s t r hf h1 h2 h3 h4]
    simp [lookupKey_setKey_self]

/-- C5 witness: concrete runs of all four conjuncts — the deposit records
amount 5, the dispute keeps it at 5 while moving 5 to `held`, and the resolve
overwrites it with the resolve event's own amount 0. -/
theorem c5_witness :
    lookupKey (applyEvent initState (depositTx 1 1 5)).transaction_history 1 =
      some ⟨1, 5, false⟩ ∧
    lookupKey (applyEvent (applyEvents initState [depositTx 1 1 5])
        (disputeTx 1 1 0)).transaction_history 1 = some ⟨1, 5, true⟩ ∧
    lookupKey (applyEvent (applyEvents initState [depositTx 1 1 5, disputeTx 1 1 0])
        (resolveTx 1 1 0)).transaction_history 1 = some ⟨1, 0, false⟩ ∧
    lookupKey (applyEvent (applyEvents initState [depositTx 1 1 5, disputeTx 1 1 0])
        (chargebackTx 1 1 0)).transaction_history 1 = some ⟨1, 0, false⟩ := by
  refine ⟨?_, ?_, ?_, ?_⟩
  · exact (c5_recorded_amount initState (depositTx 1 1 5) ⟨0, 0, false⟩).1
      rfl (Or.inl rfl) rfl
  · exact ((c5_recorded_amount (applyEvents initState [depositTx 1 1 5])
      (disputeTx 1 1 0) ⟨1, 5, false⟩).2.1
      (by simp [applyEvents, applyEvent, accountFrozen, deposit_or_withdrawal,
        lookupKey, setKey, initState, emptyAccount, depositTx, disputeTx])
      rfl
      (by simp [applyEvents, applyEvent, accountFrozen, deposit_or_withdrawal,
        lookupKey, setKey, initState, emptyAccount, depositTx, disputeTx])
      rfl).1
  · exact ((c5_recorded_amount (applyEvents initState [depositTx 1 1 5, disputeTx 1 1 0])
      (resolveTx 1 1 0) ⟨1, 5, true⟩).2.2.1
      (by simp [applyEvents, applyEvent, accountFrozen, dispute, deposit_or_withdrawal,
        lookupKey, setKey, initState, emptyAccount, depositTx, disputeTx, resolveTx])
      rfl
      (by simp [applyEvents, applyEvent, accountFrozen, dispute, deposit_or_withdrawal,
        lookupKey, setKey, initState, emptyAccount, depositTx, disputeTx, resolveTx])
      rfl rfl).1
  · exact ((c5_recorded_amount (applyEvents initState [depositTx 1 1 5, disputeTx 1 1 0])
      (chargebackTx 1 1 0) ⟨1, 5, true⟩).2.2.2
      (by simp [applyEvents, applyEvent, accountFrozen, dispute, deposit_or_withdrawal,
        lookupKey, setKey, initState, emptyAccount, depositTx, disputeTx, chargebackTx])
      rfl
      (by simp [applyEvents, applyEvent, accountFrozen, dispute, deposit_or_withdrawal,
        lookupKey, setKey, initState, emptyAccount, depositTx, disputeTx, chargebackTx])
      rfl rfl).1

/-- C7: a deposit/withdrawal whose `transaction_id` is already in the history
is a no-op on both tables; history entries persist across every event; and an
accepted deposit/withdrawal followed by a deposit/withdrawal with the same
`transaction_id` (same or different client) leaves the state exactly as after
the first event alone. -/
theorem c7_duplicate_rejected (s : EngineState) (t1 t2 : Transaction) :
    ((t2.transaction_type = "deposit" ∨ t2.transaction_type = "withdrawal") →
      (lookupKey s.transaction_history t2.transaction_id).isSome = true →
      applyEvent s t2 = s) ∧
    (∀ k, (lookupKey s.transaction_history k).isSome = true →
      (lookupKey (applyEvent s t1).transaction_history k).isSome = true) ∧
    ((t1.transaction_type = "deposit" ∨ t1.transaction_type = "withdrawal") →
      (t2.transaction_type = "deposit" ∨ t2.transaction_type = "withdrawal") →
      t2.transaction_id = t1.transaction_id →
      accountFrozen s t1.client_id = false →
      lookupKey s.transaction_history t1.transaction_id = none →
      applyEvent (applyEvent s t1) t2 = applyEvent s t1) := by
  refine ⟨fun h1 h2 => applyEvent_dup s t2 h1 h2,
    fun k hk => history_isSome_applyEvent s t1 k hk, ?_⟩
  intro h1 h2 htx hf h5
  rw [applyEvent_depwd s t1 hf h1 h5]
  apply applyEvent_dup _ t2 h2
  rw [htx]
  simp [lookupKey_setKey_self]

/-- C7 witness: the duplicate deposit (tx 1, different client) after an
accepted deposit is a no-op, both through the general no-op conjunct and the
two-in-a-row conjunct. -/
theorem c7_witness :
    applyEvent (applyEvents initState [depositTx 1 7 5]) (depositTx 2 7 3) =
      applyEvents initState [depositTx 1 7 5] ∧
    applyEvent (applyEvent initState (depositTx 1 7 5)) (withdrawalTx 2 7 3) =
      applyEvent initState (depositTx 1 7 5) := by
  constructor
  · exact (c7_duplicate_rejected (applyEvents initState [depositTx 1 7 5])
      (depositTx 1 7 5) (depositTx 2 7 3)).1 (Or.inl rfl)
      (by simp [applyEvents, applyEvent, accountFrozen, deposit_or_withdrawal,
        lookupKey, setKey, initState, emptyAccount, depositTx])
  · exact (c7_duplicate_rejected initState (depositTx 1 7 5)
      (withdrawalTx 2 7 3)).2.2 (Or.inl rfl) (Or.inr rfl) rfl rfl rfl

/-- C8: deposit of `a` → dispute → chargeback (matching client and tx ids)
leaves the account at `available = 0`, `held = 0` (held reduced by the
deposited amount), `locked = true`; and after that, ANY event carrying that
`client_id` — in particular every subsequent deposit or withdrawal — is a
no-op, after any further stream. -/
theorem c8_chargeback_terminal (c t : ℕ) (a r1 r2 : ℚ) :
    lookupKey (applyEvents initState
        [depositTx c t a, disputeTx c t r1]).clients c = some ⟨0, a, a, false⟩ ∧
    lookupKey (applyEvents initState
        [depositTx c t a, disputeTx c t r1, chargebackTx c t r2]).clients c =
      some ⟨0, 0, 0, true⟩ ∧
    (∀ es e, e.client_id = c →
      applyEvent (applyEvents (applyEvents initState
          [depositTx c t a, disputeTx c t r1, chargebackTx c t r2]) es) e =
        applyEvents (applyEvents initState
          [depositTx c t a, disputeTx c t r1, chargebackTx c t r2]) es) := by
  refine ⟨?_, ?_, ?_⟩
  · simp [applyEvents, applyEvent, accountFrozen, dispute, deposit_or_withdrawal,
      lookupKey, setKey, initState, emptyAccount, depositTx, disputeTx]
  · simp [applyEvents, applyEvent, accountFrozen, dispute, deposit_or_withdrawal,
      resolve_or_chargeback, lookupKey, setKey, initState, emptyAccount,
      depositTx, disputeTx, chargebackTx]
  · intro es e he
    apply applyEvent_frozen
    rw [he]
    apply accountFrozen_applyEvents
    have hl : lookupKey (applyEvents initState
        [depositTx c t a, disputeTx c t r1, chargebackTx c t r2]).clients c =
        some ⟨0, 0, 0, true⟩ := by
      simp [applyEvents, applyEvent, accountFrozen, dispute, deposit_or_withdrawal,
        resolve_or_chargeback, lookupKey, setKey, initState, emptyAccount,
        depositTx, disputeTx, chargebackTx]
    unfold accountFrozen
    rw [hl]

/-- C8 witness: deposit(5) → dispute → chargeback on client 1, then a fresh
deposit for client 1 is a no-op. -/
theorem c8_witness :
    applyEvent (applyEvents (applyEvents initState
        [depositTx 1 1 5, disputeTx 1 1 0, chargebackTx 1 1 0]) [])
        (depositTx 1 9 7) =
      applyEvents (applyEvents initState
        [depositTx 1 1 5, disputeTx 1 1 0, chargebackTx 1 1 0]) [] :=
  (c8_chargeback_terminal 1 1 5 0 0).2.2 [] (depositTx 1 9 7) rfl

/-- C10 counterexample: a resolve carrying client 2 (which owns no account)
against client 1's disputed transaction 1 makes a zero-balance account for
client 2 appear. -/
theorem c10_counterexample :
    lookupKey (applyEvents initState
        [depositTx 1 1 5, disputeTx 1 1 0]).clients 2 = none ∧
    lookupKey (applyEvent (applyEvents initState
        [depositTx 1 1 5, disputeTx 1 1 0]) (resolveTx 2 1 0)).clients 2 =
      some ⟨0, 0, 0, false⟩ := by
  constructor <;>
    simp [applyEvents, applyEvent, accountFrozen, dispute, deposit_or_withdrawal,
      resolve_or_chargeback, lookupKey, setKey, initState, emptyAccount,
      depositTx, disputeTx, resolveTx]

/-- C10 (amended): from the empty initial state, a dispute never adds a
client id to the accounts table, and a resolve/chargeback adds at most its
own `client_id`; in particular, with a matching owner a resolve/chargeback
adds no account at all.  Only the owner-mismatch resolve/chargeback can make
a new (zero-balance) account appear. -/
theorem c10_no_account_from_lifecycle (es : List Transaction) (t : Transaction)
    (c : ℕ) (r : TxRecord) :
    (t.transaction_type = "dispute" →
      lookupKey (applyEvents initState es).clients c = none →
      lookupKey (applyEvent (applyEvents initState es) t).clients c = none) ∧
    ((t.transaction_type = "resolve" ∨ t.transaction_type = "chargeback") →
      c ≠ t.client_id →
      lookupKey (applyEvents initState es).clients c = none →
      lookupKey (applyEvent (applyEvents initState es) t).clients c = none) ∧
    ((t.transaction_type = "resolve" ∨ t.transaction_type = "chargeback") →
      lookupKey (applyEvents initState es).transaction_history t.transaction_id =
        some r →
      r.client_id = t.client_id →
      lookupKey (applyEvents initState es).clients c = none →
      lookupKey (applyEvent (applyEvents initState es) t).clients c = none) := by
  have hInv := ownersHaveAccounts_reachable es
  refine ⟨?_, ?_, ?_⟩
  · intro h1 hnone
    by_cases hc : t.client_id = c
    · subst hc
      cases hr : lookupKey (applyEvents initState es).transaction_history
          t.transaction_id with
      | none =>
        rw [applyEvent_dispute_unknown _ t h1 hr]
        exact hnone
      | some rr =>
        by_cases ho : rr.client_id = t.client_id
        · exfalso
          have hs := hInv _ _ hr
          rw [ho, hnone] at hs
          simp at hs
        · rw [applyEvent_dispute_mismatch _ t rr h1 hr ho]
          exact hnone
    · rw [lookupKey_clients_applyEvent_ne _ t c hc]
      exact hnone
  · intro h1 hc hnone
    rw [lookupKey_clients_applyEvent_ne _ t c (fun h => hc h.symm)]
    exact hnone
  · intro h1 hr ho hnone
    by_cases hc : t.client_id = c
    · exfalso
      have hs := hInv _ _ hr
      rw [ho, hc, hnone] at hs
      simp at hs
    · rw [lookupKey_clients_applyEvent_ne _ t c hc]
      exact hnone

/-- C10 witness: on the reachable state after deposit(1,1,5) and dispute, a
repeat dispute adds no account 2; a mismatching resolve adds no account 3
(only possibly its own client 2); a matching resolve adds no account 2. -/
theorem c10_witness :
    lookupKey (applyEvent (applyEvents initState
        [depositTx 1 1 5, disputeTx 1 1 0]) (disputeTx 1 1 0)).clients 2 = none ∧
    lookupKey (applyEvent (applyEvents initState
        [depositTx 1 1 5, disputeTx 1 1 0]) (resolveTx 2 1 0)).clients 3 = none ∧
    lookupKey (applyEvent (applyEvents initState
        [depositTx 1 1 5, disputeTx 1 1 0]) (resolveTx 1 1 0)).clients 2 = none := by
  refine ⟨(c10_no_account_from_lifecycle [depositTx 1 1 5, disputeTx 1 1 0]
      (disputeTx 1 1 0) 2 ⟨0, 0, false⟩).1 rfl ?_,
    (c10_no_account_from_lifecycle [depositTx 1 1 5, disputeTx 1 1 0]
      (resolveTx 2 1 0) 3 ⟨0, 0, false⟩).2.1 (Or.inl rfl) (by simp [resolveTx]) ?_,
    (c10_no_account_from_lifecycle [depositTx 1 1 5, disputeTx 1 1 0]
      (resolveTx 1 1 0) 2 ⟨1, 5, true⟩).2.2 (Or.inl rfl) ?_ rfl ?_⟩
  · simp [applyEvents, applyEvent, accountFrozen, dispute, deposit_or_withdrawal,
      lookupKey, setKey, initState, emptyAccount, depositTx, disputeTx]
  · simp [applyEvents, applyEvent, accountFrozen, dispute, deposit_or_withdrawal,
      lookupKey, setKey, initState, emptyAccount, depositTx, disputeTx, resolveTx]
  · simp [applyEvents, applyEvent, accountFrozen, dispute, deposit_or_withdrawal,
      lookupKey, setKey, initState, emptyAccount, depositTx, disputeTx, resolveTx]
  · simp [applyEvents, applyEvent, accountFrozen, dispute, deposit_or_withdrawal,
      lookupKey, setKey, initState, emptyAccount, depositTx, disputeTx, resolveTx]
